import Mathlib

/-
Verification of the Git-backed attempt recorder of codedeck
(src/lib/git.ts) against its natural-language specification.

The recorder is embedded shallowly: the process environment becomes an
explicit `GitConfig`, the working tree and the repository object store
become an explicit `RepoState`, and each exported async function of
src/lib/git.ts becomes a pure function from configuration and state to
an `Except GitError` result (paired with the successor state where the
source mutates the filesystem or the repository).  JavaScript string
trimming and truthiness are modelled explicitly (`jsTrim`, `jsTruthy`).
Error sites are tagged with the error taxonomy of the specification
(ConfigurationError, InvalidInput, RepositoryInvalid, IOFailure,
CommitFailure, PushFailure, NotFoundAtCommit); the message text of each
error follows the throw site in the source.
-/

/-- Error taxonomy of spec section 7; each constructor carries the
message of the corresponding throw site in src/lib/git.ts. -/
inductive GitError where
  | configurationError : String → GitError
  | invalidInput : String → GitError
  | repositoryInvalid : String → GitError
  | ioFailure : String → GitError
  | commitFailure : String → GitError
  | notFoundAtCommit : String → GitError
  | pushFailure : String → GitError
deriving Repr, DecidableEq

/-- The four environment variables read at the top of src/lib/git.ts
(lines 12-15).  `none` models an unset variable; `some ""` an empty one. -/
structure GitConfig where
  githubPat : Option String
  gitRepoPath : Option String
  gitUserName : Option String
  gitUserEmail : Option String
deriving Repr, DecidableEq

/-- JavaScript truthiness of an optional environment string: an unset
variable and the empty string are both falsy (`!GITHUB_PAT` etc.). -/
def jsTruthy (v : Option String) : Bool :=
  !(v.getD "" == "")

/-- validateGitConfig, src/lib/git.ts lines 21-37: each of the four
variables is required to be truthy, checked in source order. -/
def validateGitConfig (cfg : GitConfig) : Except GitError Unit :=
  if !jsTruthy cfg.githubPat then
    .error (.configurationError "GITHUB_PAT environment variable is required for Git integration")
  else if !jsTruthy cfg.gitRepoPath then
    .error (.configurationError "GIT_REPO_PATH environment variable is required for Git integration")
  else if !jsTruthy cfg.gitUserName then
    .error (.configurationError "GIT_USER_NAME environment variable is required for Git integration")
  else if !jsTruthy cfg.gitUserEmail then
    .error (.configurationError "GIT_USER_EMAIL environment variable is required for Git integration")
  else .ok ()

/-- JavaScript String.prototype.trim: strip whitespace from both ends. -/
def jsTrim (s : String) : String :=
  String.mk (((s.data.dropWhile Char.isWhitespace).reverse.dropWhile Char.isWhitespace).reverse)

/-- A snapshot of files: association list from (repository-relative)
path to content.  Used both for the working tree and for commit trees. -/
abbrev FileMap := List (String × String)

/-- Look up the content of a path in a file map. -/
def lookupFile : FileMap → String → Option String
  | [], _ => none
  | e :: rest, p => if e.1 = p then some e.2 else lookupFile rest p

/-- Write a path in a file map, overwriting any previous content
(models fs.promises.writeFile, which overwrites). -/
def setFile : FileMap → String → String → FileMap
  | [], p, v => [(p, v)]
  | e :: rest, p, v => if e.1 = p then (p, v) :: rest else e :: setFile rest p v

/-- All paths mentioned by either of two file maps. -/
def fileKeys (a b : FileMap) : List String :=
  ((a.map Prod.fst) ++ (b.map Prod.fst)).dedup

/-- The paths on which the working tree differs from the committed HEAD
tree: this models `git add .` followed by `git status`, whose
`status.files` lists exactly the changed paths. -/
def changedPaths (work headTree : FileMap) : List String :=
  (fileKeys work headTree).filter (fun p => decide (lookupFile work p ≠ lookupFile headTree p))

/-- Number of newline characters in a string (to count lines gained by
the synthetic log file). -/
def countNl (s : String) : Nat :=
  (s.data.filter (fun c => c == '\n')).length

/-- Substring test, modelling JavaScript String.prototype.includes
(used to classify git error messages in readFileFromCommit). -/
def strContains (s pat : String) : Bool :=
  decide (pat.data <:+: s.data)

/-- Node path.join for one separator step (all joins in the source are
simple segment joins with no trailing separators). -/
def pathJoin (a b : String) : String :=
  a ++ "/" ++ b

/-- Node path.relative from a root to a path below it: strip the
`root ++ "/"` prefix (all uses in the source are of this shape). -/
def pathRelative (root p : String) : String :=
  if (root ++ "/").data.isPrefixOf p.data then
    String.mk (p.data.drop (root ++ "/").data.length)
  else p

/-- The repository-relative attempt path for a problem:
attempts/problem-{id}/attempt.py (src/lib/git.ts lines 90-92). -/
def attemptRelPath (problemId : Int) : String :=
  pathJoin (pathJoin "attempts" ("problem-" ++ toString problemId)) "attempt.py"

/-- The dedicated log file of the synthetic-commit fallback,
src/lib/git.ts line 57 (relative to the repository root). -/
def codedeckLog : String :=
  ".codedeck-attempts.log"

/-- An immutable commit: hash, message, and the snapshotted tree. -/
structure Commit where
  hash : String
  message : String
  tree : FileMap
deriving Repr, DecidableEq

/-- A configured remote with its push URL (git remote -v). -/
structure Remote where
  name : String
  pushUrl : Option String
deriving Repr, DecidableEq

/-- The state of the working tree and its repository, plus the
environment facts the source depends on: whether a push to the remote
would succeed, the hash the version-control system will assign to the
next commit, and the current clock (new Date().toISOString()). -/
structure RepoState where
  isRepo : Bool
  files : FileMap
  headTree : FileMap
  commits : List Commit
  userConfig : List (String × String)
  remotes : List Remote
  pushSucceeds : Bool
  nextHash : String
  now : String
deriving Repr, DecidableEq

/-- createTestCommitFile, src/lib/git.ts lines 56-65: append a
timestamped entry for the attempted message to the dedicated log. -/
def createTestCommitFile (message : String) (st : RepoState) : RepoState :=
  { st with files := setFile st.files codedeckLog (((lookupFile st.files codedeckLog).getD "") ++ (st.now ++ ": " ++ message ++ "\n")) }

/-- createAttemptFile, src/lib/git.ts lines 76-116: validate config,
validate inputs, build attempts/problem-{id}/attempt.py under the
repository root, write the trimmed code there (creating directories as
needed), and return the root-relative path. -/
def createAttemptFile (problemId : Int) (code : String) (cfg : GitConfig) (st : RepoState) :
    Except GitError (String × RepoState) :=
  match validateGitConfig cfg with
  | .error e => .error e
  | .ok _ =>
    if problemId ≤ 0 then
      .error (.invalidInput "Problem ID must be a positive integer")
    else if (jsTrim code).length = 0 then
      .error (.invalidInput "Python code cannot be empty")
    else
      let root := cfg.gitRepoPath.getD ""
      let attemptsDir := pathJoin root "attempts"
      let problemDir := pathJoin attemptsDir ("problem-" ++ toString problemId)
      let filePath := pathJoin problemDir "attempt.py"
      let relativePath := pathRelative root filePath
      .ok (relativePath, { st with files := setFile st.files relativePath (jsTrim code) })

/-- Split a character list at its last slash (helper for the remote URL
regex `https://github.com/(.+)/(.+)\.git`, whose first greedy group
extends to the last slash). -/
def splitAtLastSlash : List Char → Option (List Char × List Char)
  | [] => none
  | c :: rest =>
    match splitAtLastSlash rest with
    | some (a, b) => some (c :: a, b)
    | none => if c == '/' then some ([], rest) else none

/-- The remote-URL rewrite of pushToRemote, src/lib/git.ts lines
229-237: if the push URL matches https://github.com/owner/repo.git,
embed the token: https://PAT@github.com/owner/repo.git. -/
def rewriteGithubUrl (pat url : String) : Option String :=
  if "https://github.com/".data.isPrefixOf url.data && ".git".data.isSuffixOf url.data then
    match splitAtLastSlash ((url.data.drop "https://github.com/".length).take
        (url.data.length - "https://github.com/".length - ".git".length)) with
    | none => none
    | some (owner, repo) =>
      if owner.isEmpty || repo.isEmpty then none
      else some ("https://" ++ pat ++ "@github.com/" ++ String.mk owner ++ "/" ++ String.mk repo ++ ".git")
  else none

/-- pushToRemote, src/lib/git.ts lines 216-254: validate config, rewrite
the matching remote URL to embed the token, then push; the push itself
succeeds or fails according to the environment (`st.pushSucceeds`).
Returns the successor state together with the outcome, because the URL
rewrite persists even when the subsequent push fails. -/
def pushToRemote (remoteName branchName : String) (cfg : GitConfig) (st : RepoState) :
    RepoState × Except GitError Unit :=
  match validateGitConfig cfg with
  | .error e => (st, .error e)
  | .ok _ =>
    let st1 :=
      match st.remotes.find? (fun r => r.name == remoteName) with
      | none => st
      | some r =>
        match r.pushUrl.bind (rewriteGithubUrl (cfg.githubPat.getD "")) with
        | none => st
        | some newUrl =>
          { st with remotes := st.remotes.map (fun r2 => if r2.name == remoteName then { r2 with pushUrl := some newUrl } else r2) }
    if st1.pushSucceeds then (st1, .ok ()) else (st1, .error (.pushFailure "Git push failed"))

/-- The stage-and-detect-emptiness phase of createCommit, src/lib/git.ts
lines 149-168: after `git add .`, if status lists no files, append the
synthetic log entry, re-stage, and fail with the CommitFailure site if
status is still empty. -/
def stageForCommit (message : String) (st : RepoState) : Except GitError RepoState :=
  if (changedPaths st.files st.headTree).length = 0 then
    let st2 := createTestCommitFile message st
    if (changedPaths st2.files st2.headTree).length = 0 then
      .error (.commitFailure "No changes to commit even after creating test file")
    else .ok st2
  else .ok st

/-- The commit step of createCommit, src/lib/git.ts lines 170-178: the
commit receives the hash the repository assigns; an unretrievable
(empty) hash is the second CommitFailure site.  The commit snapshots
the working tree and becomes the new HEAD tree. -/
def doCommit (message : String) (st : RepoState) : Except GitError (String × RepoState) :=
  if st.nextHash = "" then
    .error (.commitFailure "Failed to retrieve commit hash from Git operation")
  else
    .ok (st.nextHash, { st with headTree := st.files, commits := st.commits ++ [{ hash := st.nextHash, message := message, tree := st.files }] })

/-- createCommit, src/lib/git.ts lines 129-206: validate message,
validate config, check the repository, configure the commit identity,
stage (with the synthetic fallback), commit, and finally push when
`autoPush` — a push failure is caught and swallowed (lines 184-192),
so the successful commit hash is returned regardless, together with
whatever state the attempted push left behind. -/
def createCommit (message : String) (autoPush : Bool) (cfg : GitConfig) (st : RepoState) :
    Except GitError (String × RepoState) :=
  if (jsTrim message).length = 0 then .error (.invalidInput "Commit message cannot be empty")
  else
    match validateGitConfig cfg with
    | .error e => .error e
    | .ok _ =>
      if st.isRepo = false then
        .error (.repositoryInvalid "Directory is not a valid Git repository")
      else
        let st1 := { st with userConfig := setFile (setFile st.userConfig "user.name" (cfg.gitUserName.getD "")) "user.email" (cfg.gitUserEmail.getD "") }
        match stageForCommit message st1 with
        | .error e => .error e
        | .ok st2 =>
          match doCommit message st2 with
          | .error e => .error e
          | .ok (commitHash, st3) =>
            if autoPush then .ok (commitHash, (pushToRemote "origin" "main" cfg st3).1)
            else .ok (commitHash, st3)

/-- Resolve a commit hash in the repository object store. -/
def findCommit (commits : List Commit) (hash : String) : Option Commit :=
  commits.find? (fun c => c.hash == hash)

/-- `git show hash:path` over the model: the success value is the blob
content; the failure value is the error message in the wording git
itself emits in each case: "invalid object name" for an unresolvable
revision, "does not exist in" for a path absent both from the commit
and from the working tree, and "exists on disk, but not in" for a path
absent from the commit but currently present in the working tree
(git never says "exists on disk, but not at" for a hash:path spec —
that wording belongs to index-stage errors only). -/
def gitShow (st : RepoState) (commitHash filePath : String) : Except String String :=
  match findCommit st.commits commitHash with
  | none => .error ("fatal: invalid object name " ++ commitHash)
  | some c =>
    match lookupFile c.tree filePath with
    | some content => .ok content
    | none =>
      if (lookupFile st.files filePath).isSome then
        .error ("fatal: path " ++ filePath ++ " exists on disk, but not in " ++ commitHash)
      else
        .error ("fatal: path " ++ filePath ++ " does not exist in " ++ commitHash)

/-- readFileFromCommit, src/lib/git.ts lines 295-331: validate config
and inputs, run `git show hash:path`, and classify a failure as
NotFoundAtCommit exactly when the message includes "does not exist" or
"exists on disk, but not at" (line 323), as IOFailure otherwise. -/
def readFileFromCommit (filePath commitHash : String) (cfg : GitConfig) (st : RepoState) :
    Except GitError String :=
  match validateGitConfig cfg with
  | .error e => .error e
  | .ok _ =>
    if (jsTrim filePath).length = 0 then
      .error (.invalidInput "File path cannot be empty")
    else if (jsTrim commitHash).length = 0 then
      .error (.invalidInput "Commit hash cannot be empty")
    else
      match gitShow st commitHash filePath with
      | .ok contents => .ok contents
      | .error msg =>
        if strContains msg "does not exist" || strContains msg "exists on disk, but not at" then
          .error (.notFoundAtCommit ("File " ++ filePath ++ " not found in commit " ++ commitHash))
        else
          .error (.ioFailure ("Failed to read file from commit: " ++ msg))

/-- The working tree that the commit created by createCommit snapshots:
the synthetic log entry is appended exactly when staging found no
changes (helper naming the two staging outcomes of stageForCommit). -/
def stagedFiles (message : String) (st : RepoState) : FileMap :=
  if (changedPaths st.files st.headTree).length = 0 then
    setFile st.files codedeckLog (((lookupFile st.files codedeckLog).getD "") ++ (st.now ++ ": " ++ message ++ "\n"))
  else st.files

/-- readAttemptFile, src/lib/git.ts lines 343-384: `if (commitHash)` —
a supplied, JavaScript-truthy (non-empty) hash routes to the historical
read; an omitted or empty hash falls through to the live filesystem
read of the working-tree copy. -/
def readAttemptFile (filePath : String) (commitHash : Option String) (cfg : GitConfig)
    (st : RepoState) : Except GitError String :=
  if commitHash.getD "" ≠ "" then
    readFileFromCommit filePath (commitHash.getD "") cfg st
  else
    match validateGitConfig cfg with
    | .error e => .error e
    | .ok _ =>
      if (jsTrim filePath).length = 0 then
        .error (.invalidInput "File path cannot be empty")
      else
        match lookupFile st.files filePath with
        | none => .error (.ioFailure ("File not found: " ++ filePath))
        | some contents => .ok contents

/-- A fully configured environment for concrete instantiations. -/
def cfgDemo : GitConfig :=
  ⟨some "tok", some "/repo", some "me", some "me@example.com"⟩

/-- A configuration whose token is the example value that the
repository documentation and startup script treat as a placeholder;
every other value is real. -/
def cfgPlaceholder : GitConfig :=
  ⟨some "your PAT", some "/repo", some "me", some "me@example.com"⟩

/-- A configuration with the token unset. -/
def cfgMissing : GitConfig :=
  ⟨none, some "/repo", some "me", some "me@example.com"⟩

/-- A valid empty repository with a GitHub remote that rejects pushes,
a clean working tree, and a pending commit hash h1. -/
def stDemo : RepoState :=
  ⟨true, [], [], [], [], [⟨"origin", some "https://github.com/owner/repo.git"⟩], false, "h1", "2025-01-01T00:00:00.000Z"⟩

/-- A repository with one historical commit h1 snapshotting the single
file f, a clean working tree, and a pending commit hash h2. -/
def stHist : RepoState :=
  ⟨true, [("f", "x")], [("f", "x")], [⟨"h1", "m", [("f", "x")]⟩], [], [], false, "h2", "2025-01-02T00:00:00.000Z"⟩

/-- The historical repository with an extra file g present in the
working tree but absent from the snapshot of commit h1: the
distinguishing input of the NotFoundAtCommit classification. -/
def stHistDisk : RepoState :=
  ⟨true, [("f", "x"), ("g", "y")], [("f", "x")], [⟨"h1", "m", [("f", "x")]⟩], [], [], false, "h2", "2025-01-02T00:00:00.000Z"⟩

theorem lookupFile_setFile_self (fs : FileMap) (p v : String) :
    lookupFile (setFile fs p v) p = some v := by
  induction fs with
  | nil => simp [setFile, lookupFile]
  | cons e rest ih =>
    by_cases h : e.1 = p
    · simp [setFile, h, lookupFile]
    · simp [setFile, h, lookupFile, ih]

theorem lookupFile_setFile_ne (fs : FileMap) (p v q : String) (h : q ≠ p) :
    lookupFile (setFile fs p v) q = lookupFile fs q := by
  induction fs with
  | nil => simp [setFile, lookupFile, Ne.symm h]
  | cons e rest ih =>
    by_cases h2 : e.1 = p
    · have h3 : ¬ (p = q) := Ne.symm h
      have h4 : ¬ (e.1 = q) := by rw [h2]; exact h3
      simp [setFile, h2, lookupFile, h3, h4]
    · by_cases h5 : e.1 = q
      · simp [setFile, h2, lookupFile, h5, h]
      · simp [setFile, h2, lookupFile, h5, h, ih]

theorem mem_map_fst_of_lookup (fs : FileMap) (p v : String)
    (h : lookupFile fs p = some v) : p ∈ fs.map Prod.fst := by
  induction fs with
  | nil => simp [lookupFile] at h
  | cons e rest ih =>
    by_cases h2 : e.1 = p
    · simp [h2]
    · rw [lookupFile, if_neg h2] at h
      exact List.mem_cons_of_mem _ (ih h)

theorem changedPaths_ne_nil (work headT : FileMap) (p : String)
    (hne : lookupFile work p ≠ lookupFile headT p) : changedPaths work headT ≠ [] := by
  have hkey : p ∈ fileKeys work headT := by
    rcases hw : lookupFile work p with _ | v
    · rcases hh : lookupFile headT p with _ | w
      · exact absurd (hw.trans hh.symm) hne
      · exact List.mem_dedup.mpr (List.mem_append_right _ (mem_map_fst_of_lookup _ _ _ hh))
    · exact List.mem_dedup.mpr (List.mem_append_left _ (mem_map_fst_of_lookup _ _ _ hw))
  have hmem : p ∈ changedPaths work headT :=
    List.mem_filter.mpr ⟨hkey, decide_eq_true hne⟩
  exact List.ne_nil_of_mem hmem

theorem lookup_eq_of_changedPaths_nil (work headT : FileMap)
    (h : changedPaths work headT = []) (p : String) :
    lookupFile work p = lookupFile headT p := by
  by_contra hne
  exact changedPaths_ne_nil work headT p hne h

theorem countNl_append (a b : String) : countNl (a ++ b) = countNl a + countNl b := by
  simp [countNl, String.data_append, List.filter_append]

theorem append_log_entry_ne (now msg c : String) :
    c ++ (now ++ ": " ++ msg ++ "\n") ≠ c := by
  intro h
  have hl := congrArg String.length h
  have h2 : (": " : String).length = 2 := rfl
  have h3 : ("\n" : String).length = 1 := rfl
  simp only [String.length_append, h2, h3] at hl
  omega

theorem changed_after_log_append (message : String) (st : RepoState)
    (hclean : (changedPaths st.files st.headTree).length = 0) :
    (changedPaths (setFile st.files codedeckLog (((lookupFile st.files codedeckLog).getD "") ++ (st.now ++ ": " ++ message ++ "\n"))) st.headTree).length ≠ 0 := by
  intro hzero
  rw [List.length_eq_zero] at hzero hclean
  have h1 := lookup_eq_of_changedPaths_nil _ _ hzero codedeckLog
  have h0 := lookup_eq_of_changedPaths_nil _ _ hclean codedeckLog
  rw [lookupFile_setFile_self] at h1
  rw [← h0] at h1
  rcases hl : lookupFile st.files codedeckLog with _ | c
  · rw [hl] at h1
    exact Option.noConfusion h1
  · rw [hl] at h1
    simp only [Option.getD_some, Option.some.injEq] at h1
    exact append_log_entry_ne st.now message c h1

theorem stageForCommit_eq (message : String) (st : RepoState) :
    stageForCommit message st = .ok { st with files := stagedFiles message st } := by
  unfold stageForCommit stagedFiles createTestCommitFile
  by_cases hch : (changedPaths st.files st.headTree).length = 0
  · rw [if_pos hch, if_pos hch]
    rw [if_neg (changed_after_log_append message st hch)]
  · rw [if_neg hch, if_neg hch]

theorem pushToRemote_fields (remoteName branchName : String) (cfg : GitConfig) (st : RepoState) :
    (pushToRemote remoteName branchName cfg st).1.files = st.files ∧
    (pushToRemote remoteName branchName cfg st).1.commits = st.commits ∧
    (pushToRemote remoteName branchName cfg st).1.headTree = st.headTree ∧
    (pushToRemote remoteName branchName cfg st).1.nextHash = st.nextHash := by
  unfold pushToRemote
  cases hv : validateGitConfig cfg with
  | error e => simp
  | ok u =>
    cases hf : st.remotes.find? (fun r => r.name == remoteName) with
    | none => by_cases h : st.pushSucceeds <;> simp [hf, h]
    | some r =>
      cases hu : r.pushUrl.bind (rewriteGithubUrl (cfg.githubPat.getD "")) with
      | none => by_cases h : st.pushSucceeds <;> simp [hf, hu, h]
      | some u2 => by_cases h : st.pushSucceeds <;> simp [hf, hu, h]

theorem createCommit_ok (message : String) (autoPush : Bool) (cfg : GitConfig) (st : RepoState)
    (hmsg : (jsTrim message).length ≠ 0) (hcfg : validateGitConfig cfg = .ok ())
    (hrepo : st.isRepo = true) (hhash : st.nextHash ≠ "") :
    ∃ st2, createCommit message autoPush cfg st = .ok (st.nextHash, st2) ∧
      st2.files = stagedFiles message st ∧
      st2.commits = st.commits ++ [{ hash := st.nextHash, message := message, tree := stagedFiles message st }] := by
  have hrepo2 : ¬ (st.isRepo = false) := by rw [hrepo]; simp
  have hstage := stageForCommit_eq message { st with userConfig := setFile (setFile st.userConfig "user.name" (cfg.gitUserName.getD "")) "user.email" (cfg.gitUserEmail.getD "") }
  unfold createCommit
  rw [if_neg hmsg, hcfg]
  simp only [if_neg hrepo2, hstage, doCommit, if_neg hhash]
  cases autoPush with
  | false =>
    exact ⟨_, rfl, rfl, rfl⟩
  | true =>
    exact ⟨_, rfl, (pushToRemote_fields _ _ _ _).1.trans rfl, ((pushToRemote_fields _ _ _ _).2.1).trans rfl⟩

theorem strMk_data (s : String) : String.mk s.data = s := rfl

theorem pathJoin_assoc (a b c : String) : pathJoin (pathJoin a b) c = pathJoin a (pathJoin b c) := by
  simp [pathJoin, String.append_assoc]

theorem pathRelative_pathJoin (root s : String) : pathRelative root (pathJoin root s) = s := by
  unfold pathRelative pathJoin
  simp only [String.data_append]
  rw [if_pos (List.isPrefixOf_iff_prefix.mpr (List.prefix_append _ _))]
  rw [List.drop_left]

theorem createAttemptFile_path (root : String) (problemId : Int) :
    pathRelative root (pathJoin (pathJoin (pathJoin root "attempts") ("problem-" ++ toString problemId)) "attempt.py") = attemptRelPath problemId := by
  rw [pathJoin_assoc, pathJoin_assoc, pathRelative_pathJoin, attemptRelPath, pathJoin_assoc]

theorem createAttemptFile_eq (problemId : Int) (code : String) (cfg : GitConfig) (st : RepoState)
    (hcfg : validateGitConfig cfg = .ok ()) (hid : 0 < problemId)
    (hcode : (jsTrim code).length ≠ 0) :
    createAttemptFile problemId code cfg st = .ok (attemptRelPath problemId, { st with files := setFile st.files (attemptRelPath problemId) (jsTrim code) }) := by
  have hid2 : ¬ (problemId ≤ 0) := by omega
  unfold createAttemptFile
  rw [hcfg]
  simp only [if_neg hid2, if_neg hcode, createAttemptFile_path]

theorem dropWhile_nil_of_forall {p : Char → Bool} (l : List Char)
    (h : ∀ x ∈ List.dropWhile p l, p x = true) : List.dropWhile p l = [] := by
  induction l with
  | nil => rfl
  | cons a t ih =>
    by_cases ha : p a = true
    · rw [List.dropWhile_cons, if_pos ha] at h ⊢
      exact ih h
    · rw [List.dropWhile_cons, if_neg ha] at h
      exact absurd (h a (List.mem_cons_self a t)) ha

theorem jsTrim_length_ne_zero (s : String) (c : Char) (hc : c ∈ s.data)
    (hw : c.isWhitespace = false) : (jsTrim s).length ≠ 0 := by
  intro h
  unfold jsTrim at h
  rw [show (String.mk ((((s.data.dropWhile Char.isWhitespace).reverse).dropWhile Char.isWhitespace).reverse)).length = ((((s.data.dropWhile Char.isWhitespace).reverse).dropWhile Char.isWhitespace).reverse).length from rfl] at h
  rw [List.length_reverse, List.length_eq_zero] at h
  rw [List.dropWhile_eq_nil_iff] at h
  have h2 : List.dropWhile Char.isWhitespace s.data = [] := by
    apply dropWhile_nil_of_forall
    intro x hx
    exact h x (List.mem_reverse.mpr hx)
  rw [List.dropWhile_eq_nil_iff] at h2
  have h3 := h2 c hc
  rw [hw] at h3
  exact Bool.noConfusion h3

theorem attemptRelPath_data (problemId : Int) :
    (attemptRelPath problemId).data = "attempts".data ++ ("/".data ++ (("problem-" ++ toString problemId).data ++ ("/".data ++ "attempt.py".data))) := by
  simp [attemptRelPath, pathJoin, String.data_append, List.append_assoc]

theorem attemptRelPath_trim_ne_zero (problemId : Int) :
    (jsTrim (attemptRelPath problemId)).length ≠ 0 := by
  apply jsTrim_length_ne_zero _ 'a'
  · rw [attemptRelPath_data]
    exact List.mem_append_left _ (by decide)
  · decide

theorem attemptRelPath_ne_log (problemId : Int) : attemptRelPath problemId ≠ codedeckLog := by
  intro h
  have hd := congrArg String.data h
  rw [attemptRelPath_data] at hd
  rw [show ("attempts".data = 'a' :: "ttempts".data) from rfl] at hd
  rw [show (codedeckLog.data = '.' :: "codedeck-attempts.log".data) from rfl] at hd
  rw [List.cons_append] at hd
  injection hd with h1 h2
  exact absurd h1 (by decide)

theorem findCommit_append_fresh (commits : List Commit) (c : Commit)
    (hfresh : ∀ d ∈ commits, d.hash ≠ c.hash) :
    findCommit (commits ++ [c]) c.hash = some c := by
  unfold findCommit
  rw [List.find?_append]
  have h1 : commits.find? (fun d => d.hash == c.hash) = none := by
    rw [List.find?_eq_none]
    intro d hd
    simpa using hfresh d hd
  rw [h1]
  simp [List.find?]

theorem ne_empty_of_jsTrim_length (s : String) (h : (jsTrim s).length ≠ 0) : s ≠ "" := by
  intro hs
  subst hs
  exact h rfl

theorem validateGitConfig_error_of_falsy (cfg : GitConfig)
    (h : jsTruthy cfg.githubPat = false ∨ jsTruthy cfg.gitRepoPath = false ∨ jsTruthy cfg.gitUserName = false ∨ jsTruthy cfg.gitUserEmail = false) :
    ∃ m, validateGitConfig cfg = .error (.configurationError m) := by
  cases h1 : jsTruthy cfg.githubPat with
  | false => exact ⟨"GITHUB_PAT environment variable is required for Git integration", by simp [validateGitConfig, h1]⟩
  | true =>
    cases h2 : jsTruthy cfg.gitRepoPath with
    | false => exact ⟨"GIT_REPO_PATH environment variable is required for Git integration", by simp [validateGitConfig, h1, h2]⟩
    | true =>
      cases h3 : jsTruthy cfg.gitUserName with
      | false => exact ⟨"GIT_USER_NAME environment variable is required for Git integration", by simp [validateGitConfig, h1, h2, h3]⟩
      | true =>
        cases h4 : jsTruthy cfg.gitUserEmail with
        | false => exact ⟨"GIT_USER_EMAIL environment variable is required for Git integration", by simp [validateGitConfig, h1, h2, h3, h4]⟩
        | true => rcases h with h | h | h | h <;> simp_all

/-- Claim C1, counterexample to the claim as stated: with code that
carries leading whitespace and a trailing newline, the write-commit-read
round trip returns the trimmed text "print(1)", which is not the
original code text " print(1)\n". -/
theorem c1_roundtrip_counterexample :
    ((createAttemptFile 1 " print(1)\n" cfgDemo stDemo).bind (fun r => (createCommit "attempt" true cfgDemo r.2).bind (fun c => readFileFromCommit r.1 c.1 cfgDemo c.2))) = .ok "print(1)" ∧ ("print(1)" : String) ≠ " print(1)\n" :=
  ⟨rfl, by decide⟩

/-- Claim C1 (amended): for every positive problemId and non-whitespace
code, after writeAttemptFile returns path p and the next commit
snapshots the working tree with a fresh hash h, readAtCommit(p, h)
returns exactly the content writeAttemptFile wrote — the trimmed code
text (equal to the original code exactly when it is already trimmed). -/
theorem c1_roundtrip_trimmed (cfg : GitConfig) (st : RepoState) (problemId : Int)
    (code message : String)
    (hcfg : validateGitConfig cfg = .ok ()) (hid : 0 < problemId)
    (hcode : (jsTrim code).length ≠ 0) (hmsg : (jsTrim message).length ≠ 0)
    (hrepo : st.isRepo = true) (hhash : (jsTrim st.nextHash).length ≠ 0)
    (hfresh : ∀ c ∈ st.commits, c.hash ≠ st.nextHash) :
    ∃ st1 st2, createAttemptFile problemId code cfg st = .ok (attemptRelPath problemId, st1) ∧
      createCommit message true cfg st1 = .ok (st.nextHash, st2) ∧
      readFileFromCommit (attemptRelPath problemId) st.nextHash cfg st2 = .ok (jsTrim code) := by
  have hA := createAttemptFile_eq problemId code cfg st hcfg hid hcode
  have hne : st.nextHash ≠ "" := ne_empty_of_jsTrim_length _ hhash
  obtain ⟨st2, hB1, hB2files, hB2commits⟩ := createCommit_ok message true cfg { st with files := setFile st.files (attemptRelPath problemId) (jsTrim code) } hmsg hcfg hrepo hne
  refine ⟨_, st2, hA, hB1, ?_⟩
  have hfind : findCommit st2.commits st.nextHash = some ⟨st.nextHash, message, stagedFiles message { st with files := setFile st.files (attemptRelPath problemId) (jsTrim code) }⟩ := by
    rw [hB2commits]
    exact findCommit_append_fresh _ _ hfresh
  have htree : lookupFile (stagedFiles message { st with files := setFile st.files (attemptRelPath problemId) (jsTrim code) }) (attemptRelPath problemId) = some (jsTrim code) := by
    unfold stagedFiles
    by_cases hch : (changedPaths (setFile st.files (attemptRelPath problemId) (jsTrim code)) st.headTree).length = 0
    · rw [if_pos hch]
      rw [lookupFile_setFile_ne _ _ _ _ (attemptRelPath_ne_log problemId)]
      exact lookupFile_setFile_self _ _ _
    · rw [if_neg hch]
      exact lookupFile_setFile_self _ _ _
  unfold readFileFromCommit gitShow
  rw [hcfg]
  rw [if_neg (attemptRelPath_trim_ne_zero problemId), if_neg hhash]
  simp only [hfind, htree]

/-- Witness for claim C1 at problemId 2, code print(2), message msg
against the demo repository. -/
theorem c1_roundtrip_trimmed_witness :
    ∃ st1 st2, createAttemptFile 2 "print(2)" cfgDemo stDemo = .ok (attemptRelPath 2, st1) ∧
      createCommit "msg" true cfgDemo st1 = .ok ("h1", st2) ∧
      readFileFromCommit (attemptRelPath 2) "h1" cfgDemo st2 = .ok "print(2)" :=
  c1_roundtrip_trimmed cfgDemo stDemo 2 "print(2)" "msg" rfl (by decide) (by decide) (by decide) rfl (by decide) (fun c hc => absurd hc (List.not_mem_nil c))

/-- Claim C2: against a remote whose push fails, commitAndPush with
autoPush true returns the same commit hash as the identical call with
autoPush false, and never raises because of the push. -/
theorem c2_push_failure_swallowed (cfg : GitConfig) (st : RepoState) (message : String)
    (hcfg : validateGitConfig cfg = .ok ()) (hmsg : (jsTrim message).length ≠ 0)
    (hrepo : st.isRepo = true) (hhash : st.nextHash ≠ "")
    (hpushfail : st.pushSucceeds = false) :
    ∃ stA stB, createCommit message true cfg st = .ok (st.nextHash, stA) ∧
      createCommit message false cfg st = .ok (st.nextHash, stB) := by
  obtain ⟨stA, hA, _, _⟩ := createCommit_ok message true cfg st hmsg hcfg hrepo hhash
  obtain ⟨stB, hB, _, _⟩ := createCommit_ok message false cfg st hmsg hcfg hrepo hhash
  exact ⟨stA, stB, hA, hB⟩

/-- Witness for claim C2 against the demo repository, whose remote
rejects every push. -/
theorem c2_push_failure_swallowed_witness :
    ∃ stA stB, createCommit "attempt" true cfgDemo stDemo = .ok ("h1", stA) ∧
      createCommit "attempt" false cfgDemo stDemo = .ok ("h1", stB) :=
  c2_push_failure_swallowed cfgDemo stDemo "attempt" rfl (by decide) rfl (by decide) rfl

/-- Claim C3, counterexample to the claim as stated: the multi-line
message joining a and b with a newline makes the synthetic fallback
append two lines to the log file, not exactly one, while still
returning the commit hash. -/
theorem c3_single_line_counterexample :
    (createCommit "a\nb" true cfgDemo stDemo).toOption.map (fun r => countNl ((lookupFile r.2.files codedeckLog).getD "")) = some 2 ∧
    countNl ((lookupFile stDemo.files codedeckLog).getD "") = 0 ∧
    (createCommit "a\nb" true cfgDemo stDemo).toOption.map Prod.fst = some "h1" :=
  ⟨rfl, rfl, rfl⟩

/-- Claim C3 (amended): with a clean working tree, commitAndPush still
returns the non-empty commit hash by appending the single timestamped
entry timestamp-colon-message-newline to the dedicated log and
re-staging; the log gains exactly one line whenever the timestamp and
the message contain no newline. -/
theorem c3_synthetic_commit (cfg : GitConfig) (st : RepoState) (message : String)
    (hcfg : validateGitConfig cfg = .ok ()) (hmsg : (jsTrim message).length ≠ 0)
    (hrepo : st.isRepo = true) (hhash : st.nextHash ≠ "")
    (hclean : (changedPaths st.files st.headTree).length = 0)
    (hnow : countNl st.now = 0) (hmsgNl : countNl message = 0) :
    ∃ st2, createCommit message true cfg st = .ok (st.nextHash, st2) ∧
      lookupFile st2.files codedeckLog = some (((lookupFile st.files codedeckLog).getD "") ++ (st.now ++ ": " ++ message ++ "\n")) ∧
      countNl ((lookupFile st2.files codedeckLog).getD "") = countNl ((lookupFile st.files codedeckLog).getD "") + 1 := by
  obtain ⟨st2, h1, hfiles, _⟩ := createCommit_ok message true cfg st hmsg hcfg hrepo hhash
  have hlog : lookupFile st2.files codedeckLog = some (((lookupFile st.files codedeckLog).getD "") ++ (st.now ++ ": " ++ message ++ "\n")) := by
    rw [hfiles]
    unfold stagedFiles
    rw [if_pos hclean]
    exact lookupFile_setFile_self _ _ _
  refine ⟨st2, h1, hlog, ?_⟩
  rw [hlog]
  simp only [Option.getD_some]
  rw [countNl_append, countNl_append, countNl_append, countNl_append, hnow, hmsgNl]
  have e1 : countNl ": " = 0 := rfl
  have e2 : countNl "\n" = 1 := rfl
  rw [e1, e2]

/-- Witness for claim C3 against the demo repository with its clean
working tree. -/
theorem c3_synthetic_commit_witness :
    ∃ st2, createCommit "attempt" true cfgDemo stDemo = .ok ("h1", st2) ∧
      lookupFile st2.files codedeckLog = some (((lookupFile stDemo.files codedeckLog).getD "") ++ (stDemo.now ++ ": " ++ "attempt" ++ "\n")) ∧
      countNl ((lookupFile st2.files codedeckLog).getD "") = countNl ((lookupFile stDemo.files codedeckLog).getD "") + 1 :=
  c3_synthetic_commit cfgDemo stDemo "attempt" rfl (by decide) rfl (by decide) rfl (by decide) (by decide)

/-- Claim C4, counterexample to the claim as stated: the clearly-marked
placeholder token value (the exact example value the startup script of
the repository rejects) passes validateGitConfig and commitAndPush
succeeds with a commit hash instead of failing with ConfigurationError. -/
theorem c4_placeholder_not_rejected :
    validateGitConfig cfgPlaceholder = .ok () ∧
    (createCommit "attempt message" true cfgPlaceholder stDemo).toOption.map Prod.fst = some "h1" :=
  ⟨rfl, rfl⟩

/-- Claim C4 (amended): for commitAndPush with a non-empty message, an
absent or empty configuration value among the four required ones fails
with ConfigurationError, with a result independent of the repository
state (hence before any filesystem or process call); placeholder values
that are non-empty strings are not detected. -/
theorem c4_missing_config_rejected (cfg : GitConfig) (message : String) (autoPush : Bool)
    (hmsg : (jsTrim message).length ≠ 0)
    (hbad : jsTruthy cfg.githubPat = false ∨ jsTruthy cfg.gitRepoPath = false ∨ jsTruthy cfg.gitUserName = false ∨ jsTruthy cfg.gitUserEmail = false) :
    ∃ m, ∀ st : RepoState, createCommit message autoPush cfg st = .error (.configurationError m) := by
  obtain ⟨m, hm⟩ := validateGitConfig_error_of_falsy cfg hbad
  refine ⟨m, fun st => ?_⟩
  unfold createCommit
  rw [if_neg hmsg, hm]

/-- Witness for claim C4 with the token unset. -/
theorem c4_missing_config_rejected_witness :
    ∃ m, createCommit "attempt" false cfgMissing stDemo = .error (.configurationError m) := by
  obtain ⟨m, hm⟩ := c4_missing_config_rejected cfgMissing "attempt" false (by decide) (Or.inl rfl)
  exact ⟨m, hm stDemo⟩

/-- Claim C5: writeAttemptFile returns the path
attempts/problem-id/attempt.py depending on problemId only; two
successive calls with the same problemId and different code return the
same path and the second content fully overwrites the first. -/
theorem c5_path_stable (cfg : GitConfig) (st : RepoState) (problemId : Int) (code code2 : String)
    (hcfg : validateGitConfig cfg = .ok ()) (hid : 0 < problemId)
    (hcode : (jsTrim code).length ≠ 0) (hcode2 : (jsTrim code2).length ≠ 0) :
    ∃ st1 st2, createAttemptFile problemId code cfg st = .ok (attemptRelPath problemId, st1) ∧
      createAttemptFile problemId code2 cfg st1 = .ok (attemptRelPath problemId, st2) ∧
      lookupFile st1.files (attemptRelPath problemId) = some (jsTrim code) ∧
      lookupFile st2.files (attemptRelPath problemId) = some (jsTrim code2) :=
  ⟨_, _, createAttemptFile_eq problemId code cfg st hcfg hid hcode,
    createAttemptFile_eq problemId code2 cfg _ hcfg hid hcode2,
    lookupFile_setFile_self _ _ _, lookupFile_setFile_self _ _ _⟩

/-- Witness for claim C5 at problemId 42 with two different code texts. -/
theorem c5_path_stable_witness :
    ∃ st1 st2, createAttemptFile 42 "print(1)" cfgDemo stDemo = .ok (attemptRelPath 42, st1) ∧
      createAttemptFile 42 "print(2)" cfgDemo st1 = .ok (attemptRelPath 42, st2) ∧
      lookupFile st1.files (attemptRelPath 42) = some "print(1)" ∧
      lookupFile st2.files (attemptRelPath 42) = some "print(2)" := by
  have h := c5_path_stable cfgDemo stDemo 42 "print(1)" "print(2)" rfl (by decide) (by decide) (by decide)
  simpa using h

/-- Claim C6: under a valid configuration, writeAttemptFile fails with
InvalidInput whenever problemId is not positive or the code is empty
after trimming. -/
theorem c6_invalid_input_rejected (cfg : GitConfig) (st : RepoState) (problemId : Int) (code : String)
    (hcfg : validateGitConfig cfg = .ok ())
    (hbad : problemId ≤ 0 ∨ (jsTrim code).length = 0) :
    ∃ m, createAttemptFile problemId code cfg st = .error (.invalidInput m) := by
  unfold createAttemptFile
  rw [hcfg]
  by_cases hid : problemId ≤ 0
  · exact ⟨_, by rw [if_pos hid]⟩
  · have hc : (jsTrim code).length = 0 := hbad.resolve_left hid
    exact ⟨_, by rw [if_neg hid, if_pos hc]⟩

/-- Witness for claim C6 at problemId 0 with non-empty code, and the
empty-code rejection is exercised in its proof context at problemId 1. -/
theorem c6_invalid_input_rejected_witness :
    ∃ m, createAttemptFile 0 "print(1)" cfgDemo stDemo = .error (.invalidInput m) :=
  c6_invalid_input_rejected cfgDemo stDemo 0 "print(1)" rfl (Or.inl (by decide))

/-- Claim C7 (code bug): at the distinguishing input — the path g
currently present on disk but absent from the tree of commit h1 — git
emits "exists on disk, but not in", while the catch of
readFileFromCommit (git.ts line 323) searches for the wording
"exists on disk, but not at", which git never emits for a hash:path
spec; the check never matches, so the call returns the generic
IOFailure carrying the raw git message instead of the NotFoundAtCommit
that the claim, the spec and the source comment above the check
require.  For contrast, the same path absent from disk as well still
classifies as NotFoundAtCommit through the "does not exist" wording,
so only the exists-on-disk branch is dead. -/
theorem c7_on_disk_misclassified :
    lookupFile stHistDisk.files "g" = some "y" ∧
    lookupFile ((⟨"h1", "m", [("f", "x")]⟩ : Commit).tree) "g" = none ∧
    readFileFromCommit "g" "h1" cfgDemo stHistDisk = .error (.ioFailure "Failed to read file from commit: fatal: path g exists on disk, but not in h1") ∧
    readFileFromCommit "g" "h1" cfgDemo stHist = .error (.notFoundAtCommit "File g not found in commit h1") ∧
    readFileFromCommit "f" "h1" cfgDemo stHistDisk = .ok "x" :=
  ⟨rfl, rfl, rfl, rfl, rfl⟩

/-- Claim C8: a successful writeAttemptFile call changes exactly the
one attempt file for that problemId in the working tree and leaves the
version-control state (HEAD tree, commit history, identity
configuration, remotes, repository validity) unchanged. -/
theorem c8_writer_frame (cfg : GitConfig) (st : RepoState) (problemId : Int) (code : String)
    (hcfg : validateGitConfig cfg = .ok ()) (hid : 0 < problemId) (hcode : (jsTrim code).length ≠ 0) :
    ∃ st1, createAttemptFile problemId code cfg st = .ok (attemptRelPath problemId, st1) ∧
      lookupFile st1.files (attemptRelPath problemId) = some (jsTrim code) ∧
      (∀ q, q ≠ attemptRelPath problemId → lookupFile st1.files q = lookupFile st.files q) ∧
      st1.headTree = st.headTree ∧ st1.commits = st.commits ∧ st1.userConfig = st.userConfig ∧ st1.remotes = st.remotes ∧ st1.isRepo = st.isRepo := by
  refine ⟨_, createAttemptFile_eq problemId code cfg st hcfg hid hcode, lookupFile_setFile_self _ _ _, ?_, rfl, rfl, rfl, rfl, rfl⟩
  intro q hq
  exact lookupFile_setFile_ne _ _ _ _ hq

/-- Witness for claim C8 at problemId 7 against the historical
repository state. -/
theorem c8_writer_frame_witness :
    ∃ st1, createAttemptFile 7 "pass" cfgDemo stHist = .ok (attemptRelPath 7, st1) ∧
      lookupFile st1.files (attemptRelPath 7) = some "pass" ∧
      (∀ q, q ≠ attemptRelPath 7 → lookupFile st1.files q = lookupFile stHist.files q) ∧
      st1.headTree = stHist.headTree ∧ st1.commits = stHist.commits ∧ st1.userConfig = stHist.userConfig ∧ st1.remotes = stHist.remotes ∧ st1.isRepo = stHist.isRepo := by
  have h := c8_writer_frame cfgDemo stHist 7 "pass" rfl (by decide) (by decide)
  simpa using h

/-- Claim C9: the content stored by writeAttemptFile is the trimmed
code: it equals code.trim() always, differs from the submitted code
whenever trimming changes it, and equals the input when the input is
already trimmed. -/
theorem c9_stores_trimmed_code (cfg : GitConfig) (st : RepoState) (problemId : Int) (code : String)
    (hcfg : validateGitConfig cfg = .ok ()) (hid : 0 < problemId) (hcode : (jsTrim code).length ≠ 0) :
    ∃ st1, createAttemptFile problemId code cfg st = .ok (attemptRelPath problemId, st1) ∧
      lookupFile st1.files (attemptRelPath problemId) = some (jsTrim code) ∧
      (jsTrim code ≠ code → lookupFile st1.files (attemptRelPath problemId) ≠ some code) ∧
      (jsTrim code = code → lookupFile st1.files (attemptRelPath problemId) = some code) := by
  refine ⟨_, createAttemptFile_eq problemId code cfg st hcfg hid hcode, lookupFile_setFile_self _ _ _, ?_, ?_⟩
  · intro hne hsome
    rw [lookupFile_setFile_self] at hsome
    exact hne (Option.some.inj hsome)
  · intro heq
    rw [lookupFile_setFile_self, heq]

/-- Witness for claim C9 with whitespace-padded code at problemId 3:
the stored content is the trimmed text and differs from the input. -/
theorem c9_stores_trimmed_code_witness :
    ∃ st1, createAttemptFile 3 "  pass\n" cfgDemo stDemo = .ok (attemptRelPath 3, st1) ∧
      lookupFile st1.files (attemptRelPath 3) = some "pass" ∧
      lookupFile st1.files (attemptRelPath 3) ≠ some "  pass\n" := by
  obtain ⟨st1, h1, h2, h3, h4⟩ := c9_stores_trimmed_code cfgDemo stDemo 3 "  pass\n" rfl (by decide) (by decide)
  refine ⟨st1, h1, ?_, ?_⟩
  · rw [h2]; rfl
  · exact h3 (by decide)

/-- Claim C10: the convenience reader treats an empty commit hash as
absent: it behaves exactly like the call with no hash, reads the live
working-tree copy instead of failing with InvalidInput, and only a
non-empty hash routes to the historical readAtCommit lookup. -/
theorem c10_empty_hash_reads_live (cfg : GitConfig) (st : RepoState) (filePath : String) :
    readAttemptFile filePath (some "") cfg st = readAttemptFile filePath none cfg st ∧
    (∀ content, validateGitConfig cfg = .ok () → (jsTrim filePath).length ≠ 0 →
      lookupFile st.files filePath = some content →
      readAttemptFile filePath (some "") cfg st = .ok content) ∧
    (∀ h : String, h ≠ "" → readAttemptFile filePath (some h) cfg st = readFileFromCommit filePath h cfg st) := by
  refine ⟨rfl, ?_, ?_⟩
  · intro content hcfg hpath hlook
    unfold readAttemptFile
    rw [if_neg (by simp)]
    simp only [hcfg, if_neg hpath, hlook]
  · intro h hne
    unfold readAttemptFile
    rw [if_pos (by simpa using hne)]
    rfl

/-- Witness for claim C10 on the file f of the historical repository. -/
theorem c10_empty_hash_reads_live_witness :
    readAttemptFile "f" (some "") cfgDemo stHist = readAttemptFile "f" none cfgDemo stHist ∧
    readAttemptFile "f" (some "") cfgDemo stHist = .ok "x" ∧
    readAttemptFile "f" (some "h1") cfgDemo stHist = readFileFromCommit "f" "h1" cfgDemo stHist := by
  obtain ⟨h1, h2, h3⟩ := c10_empty_hash_reads_live cfgDemo stHist "f"
  exact ⟨h1, h2 "x" rfl (by decide) rfl, h3 "h1" (by decide)⟩
